import Mathlib

/-!
Verification of the Conway Game-of-Life board model (`src/conway/board.py`,
mirrored by `src/main.py`).  The grid is a list of rows of booleans; Python
list indexing (including negative-index wrapping and IndexError) is modelled
explicitly; the imperative `next_step` loop is modelled as a fold over an
explicit state carrying both the receiver's grid and the next board's grid,
returning `Except` so that an IndexError aborts the computation.
-/

/-- A grid: a list of rows, each row a list of booleans (True = live). -/
abbrev Grid := List (List Bool)

/-- Source constant `_DEFAULT_BOARD_SIZE_X = 32` (columns of default board). -/
def DEFAULT_BOARD_SIZE_X : Int := 32

/-- Source constant `_DEFAULT_BOARD_SIZE_Y = 24` (rows of default board). -/
def DEFAULT_BOARD_SIZE_Y : Int := 24

/-- The `Board` class: its only attribute is `self.grid`. -/
structure Board where
  grid : Grid
deriving DecidableEq

/-- `Board.__init__` with `grid=None`: `[[False] * size_x for i in range(size_y)]`.
Python `[False] * n` is empty for `n ≤ 0` and `range(n)` is empty for `n ≤ 0`,
which `Int.toNat` captures. -/
def Board.init (size_x size_y : Int) : Board :=
  ⟨(List.range size_y.toNat).map (fun _ => List.replicate size_x.toNat false)⟩

/-- `Board.__init__` with a supplied grid: `self.grid = copy.deepcopy(grid)`.
A deep copy of an immutable value is the value itself. -/
def Board.from_grid (g : Grid) : Board := ⟨g⟩

/-- `Board()` — construction with every parameter left at its default. -/
def Board.defaultBoard : Board := Board.init DEFAULT_BOARD_SIZE_X DEFAULT_BOARD_SIZE_Y

/-- Python list-index resolution: a negative index `i` is shifted by the list
length; the access succeeds iff the shifted index lands in `[0, n)`. -/
def pyIndex (n : Nat) (i : Int) : Option Nat :=
  let j : Int := if i < 0 then i + n else i
  if 0 ≤ j ∧ j < n then some j.toNat else none

/-- The index a successful Python access resolves to (wrapped for negatives). -/
def pyNorm (n : Nat) (i : Int) : Nat :=
  (if i < 0 then i + n else i).toNat

/-- Python `l[i]` read: `none` models an `IndexError`. -/
def pyGet {α : Type _} (l : List α) (i : Int) : Option α :=
  (pyIndex l.length i).bind (fun k => l[k]?)

/-- Python `l[i] = a` write: `none` models an `IndexError`. -/
def pySet {α : Type _} (l : List α) (i : Int) (a : α) : Option (List α) :=
  (pyIndex l.length i).map (fun k => l.set k a)

/-- `Board.toggle`: `self.grid[y][x] = not self.grid[y][x]`.  The right-hand
side reads row `y` then column `x`; the assignment writes column `x` of row
`y` back.  Any failing index access is an `IndexError` (`none`). -/
def Board.toggle (b : Board) (x y : Int) : Option Board :=
  (pyGet b.grid y).bind fun row =>
  (pyGet row x).bind fun c =>
  (pySet row x (!c)).bind fun row2 =>
  (pySet b.grid y row2).map fun g2 => Board.mk g2

/-- `Board._get_neighbour_count` on a raw grid, for the non-negative
coordinates it is invoked with: for `neighbour_y` in
`range(max(0, y-1), min(y+2, len(grid)))` and `neighbour_x` in
`range(max(0, x-1), min(x+2, len(grid[neighbour_y])))`, skip `(x, y)` itself
and add 1 per live cell.  Natural-number truncated subtraction `y - 1`
coincides with Python's `max(0, y-1)` for `y ≥ 0`. -/
def nbCountGrid (g : Grid) (x y : Nat) : Nat :=
  ((List.range' (y - 1) (min (y + 2) g.length - (y - 1))).map (fun ny =>
    ((List.range' (x - 1) (min (x + 2) (g.getD ny []).length - (x - 1))).map (fun nx =>
      if nx = x ∧ ny = y then 0
      else if (g.getD ny []).getD nx false then 1 else 0)).sum)).sum

/-- `Board._get_neighbour_count` (method form). -/
def Board.get_neighbour_count (b : Board) (x y : Nat) : Nat :=
  nbCountGrid b.grid x y

/-- The value `next_step` writes into `next_board.grid[y][x]`: `some v` when
one of the branches assigns `v`, `none` when the dead-cell `else` branch
makes no assignment. -/
def life_write (live : Bool) (nc : Nat) : Option Bool :=
  if live then
    if nc < 2 then some false
    else if nc > 3 then some false
    else some true
  else
    if nc = 3 then some true else none

/-- Python `g[y][x] = v` for non-negative in-loop indices: `none` models the
`IndexError` raised when `y ≥ len(g)` or `x ≥ len(g[y])`. -/
def setAt (g : Grid) (y x : Nat) (v : Bool) : Option Grid :=
  if y < g.length then
    if x < (g.getD y []).length then some (g.set y ((g.getD y []).set x v))
    else none
  else none

/-- Mutable state of a `next_step` call: the receiver's grid (`self.grid`)
and the freshly allocated `next_board.grid`. -/
structure StepState where
  selfGrid : Grid
  nextGrid : Grid
deriving DecidableEq

instance {ε α : Type _} [DecidableEq ε] [DecidableEq α] : DecidableEq (Except ε α) :=
  fun a b =>
  match a, b with
  | Except.ok x, Except.ok y =>
    if h : x = y then isTrue (by rw [h]) else isFalse (fun hc => h (by cases hc; rfl))
  | Except.ok _, Except.error _ => isFalse (fun hc => Except.noConfusion hc)
  | Except.error _, Except.ok _ => isFalse (fun hc => Except.noConfusion hc)
  | Except.error x, Except.error y =>
    if h : x = y then isTrue (by rw [h]) else isFalse (fun hc => h (by cases hc; rfl))

/-- One iteration of the `next_step` loop body at `(x, y)`: reads the cell and
its neighbour count from the state's receiver grid, writes (or not) into the
state's next grid; an out-of-bounds write aborts with the state at failure. -/
def step_cell (st : StepState) (x y : Nat) : Except StepState StepState :=
  match life_write ((st.selfGrid.getD y []).getD x false) (nbCountGrid st.selfGrid x y) with
  | none => Except.ok st
  | some v =>
    match setAt st.nextGrid y x v with
    | some g2 => Except.ok ⟨st.selfGrid, g2⟩
    | none => Except.error st

/-- `Board.next_step`, run as the imperative loop: `next_board = Board()`,
then for `y` in `range(len(self.grid))`, for `x` in `range(len(self.grid[y]))`,
execute the loop body.  The result carries the final state; an `IndexError`
yields `Except.error` with the state at the failure point. -/
def next_step_run (b : Board) : Except StepState StepState :=
  (List.range b.grid.length).foldl (fun acc y =>
    (List.range (b.grid.getD y []).length).foldl (fun acc2 x =>
      acc2.bind (fun st => step_cell st x y)) acc)
    (Except.ok ⟨b.grid, Board.defaultBoard.grid⟩)

/-- `Board.next_step` as observed by the caller: the returned board, or
`none` if the call raised. -/
def Board.next_step (b : Board) : Option Board :=
  match next_step_run b with
  | Except.ok st => some ⟨st.nextGrid⟩
  | Except.error _ => none

/-- Snapshot semantics of the transition, following the spec's words: every
cell of the next generation is computed from the fixed pre-transition grid
`S`; the next grid is built up from the default board's grid by the same
writes, with no access to any partially updated state. -/
def snap_cell (S : Grid) (g : Grid) (x y : Nat) : Except Grid Grid :=
  match life_write ((S.getD y []).getD x false) (nbCountGrid S x y) with
  | none => Except.ok g
  | some v =>
    match setAt g y x v with
    | some g2 => Except.ok g2
    | none => Except.error g

/-- The whole transition under snapshot semantics. -/
def next_step_snapshot (S : Grid) : Except Grid Grid :=
  (List.range S.length).foldl (fun acc y =>
    (List.range (S.getD y []).length).foldl (fun acc2 x =>
      acc2.bind (fun g => snap_cell S g x y)) acc)
    (Except.ok Board.defaultBoard.grid)

/-- Pair a snapshot outcome with an (unchanged) receiver grid. -/
def emap (S : Grid) : Except Grid Grid → Except StepState StepState
  | Except.ok g => Except.ok ⟨S, g⟩
  | Except.error g => Except.error ⟨S, g⟩

/-- Rectangularity: every row of `g` has length `w`. -/
def isRect (g : Grid) (w : Nat) : Prop := ∀ row ∈ g, row.length = w

instance (g : Grid) (w : Nat) : Decidable (isRect g w) :=
  List.decidableBAll _ g

/-- The cell of `g` at column `x`, row `y` (dead outside the grid). -/
def cellAt (g : Grid) (x y : Nat) : Bool := (g.getD y []).getD x false

/-- Two grids with the same number of rows and the same row lengths. -/
def sameShape (g1 g2 : Grid) : Prop :=
  g1.length = g2.length ∧ ∀ j : Nat, (g1.getD j []).length = (g2.getD j []).length

/-- Spec-side neighbour description: the number of live cells in the Moore
neighborhood of `(x, y)` intersected with `[0, w) × [0, h)`, excluding
`(x, y)` itself.  Pairs are `(row, column)`. -/
def mooreLiveCount (g : Grid) (w x y : Nat) : Nat :=
  (((Finset.range g.length) ×ˢ (Finset.range w)).filter (fun p =>
    (p.1 ≤ y + 1 ∧ y ≤ p.1 + 1 ∧ p.2 ≤ x + 1 ∧ x ≤ p.2 + 1) ∧
    ¬(p.2 = x ∧ p.1 = y) ∧ (g.getD p.1 []).getD p.2 false = true)).card

/-! ### General helper lemmas -/

theorem pyIndex_natCast (n k : Nat) (hk : k < n) : pyIndex n (k : Int) = some k := by
  unfold pyIndex
  have h1 : ¬ ((k : Int) < 0) := by omega
  simp only [h1, if_false]
  have h2 : (0 : Int) ≤ (k : Int) ∧ (k : Int) < (n : Int) := by omega
  rw [if_pos h2, Int.toNat_natCast]

theorem pyGet_natCast {α : Type _} (l : List α) (k : Nat) (hk : k < l.length) :
    pyGet l (k : Int) = l[k]? := by
  unfold pyGet
  rw [pyIndex_natCast _ _ hk]
  rfl

theorem pySet_natCast {α : Type _} (l : List α) (k : Nat) (a : α) (hk : k < l.length) :
    pySet l (k : Int) a = some (l.set k a) := by
  unfold pySet
  rw [pyIndex_natCast _ _ hk]
  rfl

theorem set_getD_self {α : Type _} (l : List α) (k : Nat) (d : α) (hk : k < l.length) :
    l.set k (l.getD k d) = l := by
  apply List.ext_getElem?
  intro n
  rw [List.getElem?_set]
  by_cases h : k = n
  · subst h
    rw [if_pos rfl, if_pos hk, List.getD_eq_getElem l d hk, List.getElem?_eq_getElem hk]
  · rw [if_neg h]

/-! ### Equivalence of the imperative run with snapshot semantics -/

theorem step_cell_emap (S g : Grid) (x y : Nat) :
    step_cell ⟨S, g⟩ x y = emap S (snap_cell S g x y) := by
  cases hl : life_write ((S.getD y []).getD x false) (nbCountGrid S x y) with
  | none => simp only [step_cell, snap_cell, hl, emap]
  | some v =>
    cases hs : setAt g y x v with
    | none => simp only [step_cell, snap_cell, hl, hs, emap]
    | some g2 => simp only [step_cell, snap_cell, hl, hs, emap]

theorem bind_step_emap (S : Grid) (x y : Nat) (e : Except Grid Grid) :
    (emap S e).bind (fun st => step_cell st x y)
      = emap S (e.bind (fun g => snap_cell S g x y)) := by
  cases e with
  | ok g => exact step_cell_emap S g x y
  | error g => rfl

theorem foldl_inner_emap (S : Grid) (y : Nat) (xs : List Nat) (e : Except Grid Grid) :
    xs.foldl (fun acc2 x => acc2.bind (fun st => step_cell st x y)) (emap S e)
      = emap S (xs.foldl (fun acc2 x => acc2.bind (fun g => snap_cell S g x y)) e) := by
  induction xs generalizing e with
  | nil => rfl
  | cons x xs ih =>
    rw [List.foldl_cons, List.foldl_cons, bind_step_emap]
    exact ih _

theorem foldl_outer_emap (S : Grid) (ys : List Nat) (e : Except Grid Grid) :
    ys.foldl (fun acc y => (List.range (S.getD y []).length).foldl
        (fun acc2 x => acc2.bind (fun st => step_cell st x y)) acc) (emap S e)
      = emap S (ys.foldl (fun acc y => (List.range (S.getD y []).length).foldl
        (fun acc2 x => acc2.bind (fun g => snap_cell S g x y)) acc) e) := by
  induction ys generalizing e with
  | nil => rfl
  | cons y ys ih =>
    rw [List.foldl_cons, List.foldl_cons, foldl_inner_emap]
    exact ih _

theorem next_step_run_eq_snapshot (b : Board) :
    next_step_run b = emap b.grid (next_step_snapshot b.grid) :=
  foldl_outer_emap b.grid (List.range b.grid.length) (Except.ok Board.defaultBoard.grid)

/-! ### Shape preservation through the transition -/

theorem sameShape_refl (g : Grid) : sameShape g g := ⟨rfl, fun _ => rfl⟩

theorem sameShape_trans {g1 g2 g3 : Grid} (h1 : sameShape g1 g2) (h2 : sameShape g2 g3) :
    sameShape g1 g3 :=
  ⟨h1.1.trans h2.1, fun j => (h1.2 j).trans (h2.2 j)⟩

theorem getD_set_row (g : Grid) (k j : Nat) (row : List Bool) :
    ((g.set k row).getD j []) = if k = j ∧ k < g.length then row else g.getD j [] := by
  rw [List.getD_eq_getElem?_getD, List.getD_eq_getElem?_getD, List.getElem?_set]
  by_cases hkj : k = j
  · subst hkj
    by_cases hk : k < g.length
    · simp [hk]
    · simp [hk, List.getElem?_eq_none (Nat.le_of_not_lt hk)]
  · simp [hkj]

theorem setAt_shape {g g2 : Grid} {y x : Nat} {v : Bool} (h : setAt g y x v = some g2) :
    sameShape g2 g := by
  unfold setAt at h
  by_cases hy : y < g.length
  · rw [if_pos hy] at h
    by_cases hx : x < (g.getD y []).length
    · rw [if_pos hx] at h
      cases h
      refine ⟨List.length_set g y ((g.getD y []).set x v), fun j => ?_⟩
      rw [getD_set_row]
      by_cases hj : y = j ∧ y < g.length
      · rw [if_pos hj, List.length_set, hj.1]
      · rw [if_neg hj]
    · rw [if_neg hx] at h
      exact absurd h (by simp)
  · rw [if_neg hy] at h
    exact absurd h (by simp)

theorem snap_cell_shape {S g g2 : Grid} {x y : Nat}
    (h : snap_cell S g x y = Except.ok g2) : sameShape g2 g := by
  cases hl : life_write ((S.getD y []).getD x false) (nbCountGrid S x y) with
  | none =>
    simp only [snap_cell, hl] at h
    cases h
    exact sameShape_refl g
  | some v =>
    cases hs : setAt g y x v with
    | none =>
      simp only [snap_cell, hl, hs] at h
      exact Except.noConfusion h
    | some g3 =>
      simp only [snap_cell, hl, hs] at h
      cases h
      exact setAt_shape hs

theorem bind_snap_pres (S g0 : Grid) (x y : Nat) (e : Except Grid Grid)
    (he : ∀ g2, e = Except.ok g2 → sameShape g2 g0) :
    ∀ g2, e.bind (fun g => snap_cell S g x y) = Except.ok g2 → sameShape g2 g0 := by
  intro g2 hok
  cases e with
  | error ge => exact Except.noConfusion hok
  | ok g1 => exact sameShape_trans (snap_cell_shape hok) (he g1 rfl)

theorem inner_fold_pres (S g0 : Grid) (y : Nat) (xs : List Nat) (e : Except Grid Grid)
    (he : ∀ g2, e = Except.ok g2 → sameShape g2 g0) :
    ∀ g2, xs.foldl (fun acc2 x => acc2.bind (fun g => snap_cell S g x y)) e = Except.ok g2 →
      sameShape g2 g0 := by
  induction xs generalizing e with
  | nil => exact he
  | cons x xs ih => exact ih _ (bind_snap_pres S g0 x y e he)

theorem next_step_snapshot_shape (S : Grid) (g : Grid)
    (h : next_step_snapshot S = Except.ok g) :
    sameShape g Board.defaultBoard.grid := by
  have main : ∀ (ys : List Nat) (e : Except Grid Grid),
      (∀ g2, e = Except.ok g2 → sameShape g2 Board.defaultBoard.grid) →
      ∀ g2, ys.foldl (fun acc y => (List.range (S.getD y []).length).foldl
          (fun acc2 x => acc2.bind (fun g => snap_cell S g x y)) acc) e = Except.ok g2 →
        sameShape g2 Board.defaultBoard.grid := by
    intro ys
    induction ys with
    | nil => intro e he; exact he
    | cons y ys ih => intro e he; exact ih _ (inner_fold_pres S _ y _ e he)
  exact main (List.range S.length) (Except.ok Board.defaultBoard.grid)
    (fun g2 h2 => by cases h2; exact sameShape_refl _) g h

/-! ### Python indexing characterization and `toggle` behaviour -/

theorem pyIndex_eq (n : Nat) (i : Int) :
    pyIndex n i = if (-(n : Int) ≤ i ∧ i < n) then some (pyNorm n i) else none := by
  simp only [pyIndex, pyNorm]
  by_cases hneg : i < 0
  · simp only [if_pos hneg]
    by_cases hge : -(n : Int) ≤ i
    · rw [if_pos (by omega), if_pos (by omega)]
    · rw [if_neg (by omega), if_neg (by omega)]
  · simp only [if_neg hneg]
    by_cases hlt : i < n
    · rw [if_pos (by omega), if_pos (by omega)]
    · rw [if_neg (by omega), if_neg (by omega)]

theorem pyNorm_lt (n : Nat) (i : Int) (h : -(n : Int) ≤ i ∧ i < n) : pyNorm n i < n := by
  unfold pyNorm
  split <;> omega

theorem pyNorm_natCast (n k : Nat) (_hk : k < n) : pyNorm n (k : Int) = k := by
  unfold pyNorm
  rw [if_neg (by omega)]
  exact Int.toNat_natCast k

theorem rect_getD_len (g : Grid) (w : Nat) (h : isRect g w) (ny : Nat)
    (hny : ny < g.length) : (g.getD ny []).length = w := by
  rw [List.getD_eq_getElem g [] hny]
  exact h _ (List.getElem_mem hny)

theorem getD_set {α : Type _} (l : List α) (k : Nat) (a d : α) (i : Nat)
    (hk : k < l.length) : (l.set k a).getD i d = if k = i then a else l.getD i d := by
  rw [List.getD_eq_getElem?_getD, List.getD_eq_getElem?_getD, List.getElem?_set]
  by_cases h : k = i
  · subst h
    rw [if_pos rfl, if_pos rfl, if_pos hk]
    rfl
  · rw [if_neg h, if_neg h]

theorem cellAt_set (g : Grid) (ky kx : Nat) (v : Bool) (hky : ky < g.length)
    (hkx : kx < (g.getD ky []).length) (i j : Nat) :
    cellAt (g.set ky ((g.getD ky []).set kx v)) i j
      = if i = kx ∧ j = ky then v else cellAt g i j := by
  unfold cellAt
  rw [getD_set g ky _ [] j hky]
  by_cases hj : ky = j
  · subst hj
    rw [if_pos rfl, getD_set _ kx v false i hkx]
    by_cases hi : kx = i
    · subst hi
      rw [if_pos rfl, if_pos ⟨rfl, rfl⟩]
    · rw [if_neg hi, if_neg (fun hand => hi hand.1.symm)]
  · rw [if_neg hj, if_neg (fun hand => hj hand.2.symm)]

theorem toggle_int_spec (b : Board) (w : Nat) (hrect : isRect b.grid w) (x y : Int)
    (hy : -(b.grid.length : Int) ≤ y ∧ y < b.grid.length)
    (hx : -(w : Int) ≤ x ∧ x < w) :
    b.toggle x y = some ⟨b.grid.set (pyNorm b.grid.length y)
      ((b.grid.getD (pyNorm b.grid.length y) []).set (pyNorm w x)
        (!(b.grid.getD (pyNorm b.grid.length y) []).getD (pyNorm w x) false))⟩ := by
  have hky : pyIndex b.grid.length y = some (pyNorm b.grid.length y) := by
    rw [pyIndex_eq, if_pos hy]
  have hkylt : pyNorm b.grid.length y < b.grid.length := pyNorm_lt _ _ hy
  have hrowget : b.grid[pyNorm b.grid.length y]? = some (b.grid.getD (pyNorm b.grid.length y) []) := by
    rw [List.getElem?_eq_getElem hkylt, List.getD_eq_getElem b.grid [] hkylt]
  have hrowlen : (b.grid.getD (pyNorm b.grid.length y) []).length = w :=
    rect_getD_len b.grid w hrect _ hkylt
  have hkx : pyIndex (b.grid.getD (pyNorm b.grid.length y) []).length x = some (pyNorm w x) := by
    rw [hrowlen, pyIndex_eq, if_pos hx]
  have hkxlt : pyNorm w x < (b.grid.getD (pyNorm b.grid.length y) []).length := by
    rw [hrowlen]
    exact pyNorm_lt _ _ hx
  have hcell : (b.grid.getD (pyNorm b.grid.length y) [])[pyNorm w x]?
      = some ((b.grid.getD (pyNorm b.grid.length y) []).getD (pyNorm w x) false) := by
    rw [List.getElem?_eq_getElem hkxlt, List.getD_eq_getElem _ false hkxlt]
  unfold Board.toggle pyGet pySet
  rw [hky]
  simp only [Option.bind_eq_bind, Option.some_bind]
  rw [hrowget]
  simp only [Option.some_bind]
  rw [hkx]
  simp only [Option.some_bind]
  rw [hcell]
  rfl

theorem toggle_none_y (b : Board) (x y : Int)
    (hy : ¬(-(b.grid.length : Int) ≤ y ∧ y < (b.grid.length : Int))) :
    b.toggle x y = none := by
  unfold Board.toggle pyGet
  rw [pyIndex_eq, if_neg hy]
  rfl

theorem toggle_none_x (b : Board) (w : Nat) (hrect : isRect b.grid w) (x y : Int)
    (hy : -(b.grid.length : Int) ≤ y ∧ y < (b.grid.length : Int))
    (hx : ¬(-(w : Int) ≤ x ∧ x < (w : Int))) : b.toggle x y = none := by
  have hky : pyIndex b.grid.length y = some (pyNorm b.grid.length y) := by
    rw [pyIndex_eq, if_pos hy]
  have hkylt : pyNorm b.grid.length y < b.grid.length := pyNorm_lt _ _ hy
  have hrowget : b.grid[pyNorm b.grid.length y]?
      = some (b.grid.getD (pyNorm b.grid.length y) []) := by
    rw [List.getElem?_eq_getElem hkylt, List.getD_eq_getElem b.grid [] hkylt]
  have hrowlen : (b.grid.getD (pyNorm b.grid.length y) []).length = w :=
    rect_getD_len b.grid w hrect _ hkylt
  unfold Board.toggle pyGet
  rw [hky]
  simp only [Option.some_bind]
  rw [hrowget]
  simp only [Option.some_bind]
  rw [hrowlen, pyIndex_eq, if_neg hx]
  rfl

theorem isRect_iff (g : Grid) (w : Nat) :
    isRect g w ↔ ∀ j : Nat, j < g.length → (g.getD j []).length = w := by
  constructor
  · intro h j hj
    exact rect_getD_len g w h j hj
  · intro h row hrow
    rcases List.mem_iff_getElem.mp hrow with ⟨j, hj, hget⟩
    have hlen := h j hj
    rw [List.getD_eq_getElem g [] hj, hget] at hlen
    exact hlen

/-! ### Claim C5 -/

/-- Claim C5 counterexample: `(-1, 0)` is outside `0 ≤ x < width` for a 2x1
board, yet `toggle(-1, 0)` does not fail: Python's negative indexing silently
wraps and the call flips cell `(1, 0)` — some other cell. -/
theorem C5_counterexample :
    Board.toggle (Board.from_grid [[false, false], [false, false]]) (-1) 0
      = some (Board.mk [[false, true], [false, false]]) := by decide

/-- Claim C5 (amended): on a rectangular board, `toggle(x, y)` raises an
out-of-bounds fault exactly when `y < -height`, `y ≥ height`, `x < -width`
or `x ≥ width`; for coordinates in Python range — including negative ones —
it silently wraps, flipping exactly the cell at the wrapped (normalized)
coordinates rather than failing. -/
theorem C5_toggle_indexing (b : Board) (w : Nat) (hrect : isRect b.grid w) (x y : Int) :
    (b.toggle x y = none ↔
      ¬((-(b.grid.length : Int) ≤ y ∧ y < (b.grid.length : Int)) ∧
        (-(w : Int) ≤ x ∧ x < (w : Int)))) ∧
    (∀ bp, b.toggle x y = some bp → ∀ i j : Nat,
      cellAt bp.grid i j = if i = pyNorm w x ∧ j = pyNorm b.grid.length y
        then !(cellAt b.grid i j) else cellAt b.grid i j) := by
  constructor
  · constructor
    · intro hnone hcon
      rcases hcon with ⟨hy, hx⟩
      rw [toggle_int_spec b w hrect x y hy hx] at hnone
      exact Option.noConfusion hnone
    · intro hcon
      by_cases hy : (-(b.grid.length : Int) ≤ y ∧ y < (b.grid.length : Int))
      · exact toggle_none_x b w hrect x y hy (fun hx => hcon ⟨hy, hx⟩)
      · exact toggle_none_y b x y hy
  · intro bp hsome i j
    by_cases hy : (-(b.grid.length : Int) ≤ y ∧ y < (b.grid.length : Int))
    · by_cases hx : (-(w : Int) ≤ x ∧ x < (w : Int))
      · rw [toggle_int_spec b w hrect x y hy hx] at hsome
        have hkylt : pyNorm b.grid.length y < b.grid.length := pyNorm_lt _ _ hy
        have hkxlt : pyNorm w x < (b.grid.getD (pyNorm b.grid.length y) []).length := by
          rw [rect_getD_len b.grid w hrect _ hkylt]
          exact pyNorm_lt _ _ hx
        cases hsome
        rw [cellAt_set b.grid _ _ _ hkylt hkxlt i j]
        by_cases hc : i = pyNorm w x ∧ j = pyNorm b.grid.length y
        · rw [if_pos hc, if_pos hc, hc.1, hc.2]
          rfl
        · rw [if_neg hc, if_neg hc]
      · rw [toggle_none_x b w hrect x y hy hx] at hsome
        exact Option.noConfusion hsome
    · rw [toggle_none_y b x y hy] at hsome
      exact Option.noConfusion hsome

/-- Witness for C5's amended theorem at a concrete input: board `[[F, F]]`,
call `toggle(-1, 0)`; the flipped cell is `(1, 0) = (pyNorm 2 (-1), pyNorm 1 0)`. -/
theorem C5_toggle_indexing_witness :
    cellAt (Board.mk [[false, true]]).grid 1 0
      = if 1 = pyNorm 2 (-1) ∧ 0 = pyNorm (Board.from_grid [[false, false]]).grid.length 0
        then !(cellAt (Board.from_grid [[false, false]]).grid 1 0)
        else cellAt (Board.from_grid [[false, false]]).grid 1 0 :=
  (C5_toggle_indexing (Board.from_grid [[false, false]]) 2 (by decide) (-1) 0).2
    (Board.mk [[false, true]]) (by decide) 1 0

/-! ### Claim C9 -/

theorem toggle_grid_spec (G : Grid) (w x y : Nat) (hrect : isRect G w)
    (hx : x < w) (hy : y < G.length) :
    Board.toggle ⟨G⟩ (x : Int) (y : Int)
      = some ⟨G.set y ((G.getD y []).set x (!(G.getD y []).getD x false))⟩ := by
  have hyI : -((G.length : Int)) ≤ (y : Int) ∧ (y : Int) < (G.length : Int) :=
    ⟨by omega, by omega⟩
  have hxI : -((w : Int)) ≤ (x : Int) ∧ (x : Int) < (w : Int) := ⟨by omega, by omega⟩
  have h : Board.toggle ⟨G⟩ (x : Int) (y : Int)
      = some ⟨G.set (pyNorm G.length (y : Int))
        ((G.getD (pyNorm G.length (y : Int)) []).set (pyNorm w (x : Int))
          (!(G.getD (pyNorm G.length (y : Int)) []).getD (pyNorm w (x : Int)) false))⟩ :=
    toggle_int_spec ⟨G⟩ w hrect (x : Int) (y : Int) hyI hxI
  rw [pyNorm_natCast _ _ hy, pyNorm_natCast _ _ hx] at h
  exact h

/-- Claim C9: on a rectangular board, for in-range coordinates `(x, y)`,
`toggle` succeeds, flips exactly the boolean at `cells[y][x]`, changes no
other cell and no dimension, and toggling twice restores the original
board (involution). -/
theorem C9_toggle_involution (b : Board) (w x y : Nat) (hrect : isRect b.grid w)
    (hx : x < w) (hy : y < b.grid.length) :
    ∃ bp, b.toggle (x : Int) (y : Int) = some bp ∧
      bp.grid.length = b.grid.length ∧
      (∀ j : Nat, (bp.grid.getD j []).length = (b.grid.getD j []).length) ∧
      (∀ i j : Nat, cellAt bp.grid i j
        = if i = x ∧ j = y then !(cellAt b.grid i j) else cellAt b.grid i j) ∧
      bp.toggle (x : Int) (y : Int) = some b := by
  have hrowlen : (b.grid.getD y []).length = w := rect_getD_len b.grid w hrect y hy
  have hxrow : x < (b.grid.getD y []).length := by rw [hrowlen]; exact hx
  have h1 : b.toggle (x : Int) (y : Int)
      = some ⟨b.grid.set y ((b.grid.getD y []).set x (!(b.grid.getD y []).getD x false))⟩ :=
    toggle_grid_spec b.grid w x y hrect hx hy
  refine ⟨_, h1, List.length_set _ _ _, ?_, ?_, ?_⟩
  · intro j
    rw [getD_set b.grid y _ [] j hy]
    by_cases hjy : y = j
    · rw [if_pos hjy]
      subst hjy
      exact List.length_set _ _ _
    · rw [if_neg hjy]
  · intro i j
    rw [cellAt_set b.grid y x _ hy hxrow i j]
    by_cases hc : i = x ∧ j = y
    · rw [if_pos hc, if_pos hc, hc.1, hc.2]
      rfl
    · rw [if_neg hc, if_neg hc]
  · have hrectp : isRect (b.grid.set y
        ((b.grid.getD y []).set x (!(b.grid.getD y []).getD x false))) w := by
      rw [isRect_iff]
      intro j hj
      rw [List.length_set] at hj
      rw [getD_set b.grid y _ [] j hy]
      by_cases hjy : y = j
      · rw [if_pos hjy, List.length_set]
        exact hrowlen
      · rw [if_neg hjy]
        exact rect_getD_len b.grid w hrect j hj
    have hy2 : y < (b.grid.set y
        ((b.grid.getD y []).set x (!(b.grid.getD y []).getD x false))).length := by
      rw [List.length_set]
      exact hy
    have h2 := toggle_grid_spec
      (b.grid.set y ((b.grid.getD y []).set x (!(b.grid.getD y []).getD x false)))
      w x y hrectp hx hy2
    rw [h2]
    have e1 : (b.grid.set y ((b.grid.getD y []).set x
        (!(b.grid.getD y []).getD x false))).getD y []
        = (b.grid.getD y []).set x (!(b.grid.getD y []).getD x false) := by
      rw [getD_set b.grid y _ [] y hy, if_pos rfl]
    rw [e1]
    have e2 : ((b.grid.getD y []).set x (!(b.grid.getD y []).getD x false)).getD x false
        = !(b.grid.getD y []).getD x false := by
      rw [getD_set _ x _ false x hxrow, if_pos rfl]
    rw [e2, Bool.not_not, List.set_set, List.set_set,
      set_getD_self _ x false hxrow, set_getD_self _ y [] hy]

/-! ### Claim C2 -/

theorem pyIndex_some_lt (n : Nat) (i : Int) (k : Nat) (h : pyIndex n i = some k) : k < n := by
  rw [pyIndex_eq] at h
  by_cases hc : (-(n : Int) ≤ i ∧ i < (n : Int))
  · rw [if_pos hc] at h
    cases h
    exact pyNorm_lt n i hc
  · rw [if_neg hc] at h
    exact Option.noConfusion h

theorem next_step_run_ok_snapshot (b : Board) (st : StepState)
    (h : next_step_run b = Except.ok st) :
    st.selfGrid = b.grid ∧ next_step_snapshot b.grid = Except.ok st.nextGrid := by
  rw [next_step_run_eq_snapshot b] at h
  cases hsnap : next_step_snapshot b.grid with
  | ok g =>
    rw [hsnap] at h
    simp only [emap] at h
    cases h
    exact ⟨rfl, rfl⟩
  | error g =>
    rw [hsnap] at h
    simp only [emap] at h
    exact Except.noConfusion h

theorem next_step_run_error_self (b : Board) (st : StepState)
    (h : next_step_run b = Except.error st) : st.selfGrid = b.grid := by
  rw [next_step_run_eq_snapshot b] at h
  cases hsnap : next_step_snapshot b.grid with
  | ok g =>
    rw [hsnap] at h
    simp only [emap] at h
    exact Except.noConfusion h
  | error g =>
    rw [hsnap] at h
    simp only [emap] at h
    cases h
    rfl

/-- Claim C2: `next_step` leaves the receiver's grid unchanged — whether the
call returns normally or aborts with an IndexError, the final `self.grid` is
the initial one — and the next generation it builds is exactly the one
computed under snapshot semantics, i.e. every cell is computed solely against
the pre-transition grid, never against a partially updated next grid. -/
theorem C2_next_step_frame (b : Board) :
    (∀ st, next_step_run b = Except.ok st →
      st.selfGrid = b.grid ∧ next_step_snapshot b.grid = Except.ok st.nextGrid) ∧
    (∀ st, next_step_run b = Except.error st → st.selfGrid = b.grid) :=
  ⟨fun st h => next_step_run_ok_snapshot b st h,
   fun st h => next_step_run_error_self b st h⟩

/-- Witness for C2 at the concrete board `[[True]]`. -/
theorem C2_next_step_frame_witness :
    (StepState.mk [[true]] Board.defaultBoard.grid).selfGrid
      = (Board.from_grid [[true]]).grid ∧
    next_step_snapshot (Board.from_grid [[true]]).grid
      = Except.ok (StepState.mk [[true]] Board.defaultBoard.grid).nextGrid :=
  (C2_next_step_frame (Board.from_grid [[true]])).1
    (StepState.mk [[true]] Board.defaultBoard.grid) (by decide)

/-! ### Claim C6 -/

theorem toggle_some_shape (b : Board) (x y : Int) (bp : Board)
    (h : b.toggle x y = some bp) :
    bp.grid.length = b.grid.length ∧
    ∀ j : Nat, (bp.grid.getD j []).length = (b.grid.getD j []).length := by
  unfold Board.toggle pyGet pySet at h
  cases hky : pyIndex b.grid.length y with
  | none =>
    rw [hky] at h
    exact Option.noConfusion h
  | some ky =>
    rw [hky] at h
    simp only [Option.some_bind] at h
    have hkylt : ky < b.grid.length := pyIndex_some_lt _ _ _ hky
    cases hrow : b.grid[ky]? with
    | none =>
      rw [hrow] at h
      exact Option.noConfusion h
    | some row =>
      rw [hrow] at h
      simp only [Option.some_bind] at h
      cases hkx : pyIndex row.length x with
      | none =>
        rw [hkx] at h
        exact Option.noConfusion h
      | some kx =>
        rw [hkx] at h
        simp only [Option.some_bind, Option.map_some] at h
        cases hcell : row[kx]? with
        | none =>
          rw [hcell] at h
          exact Option.noConfusion h
        | some c =>
          rw [hcell] at h
          simp only [Option.some_bind, Option.map_some] at h
          cases h
          have hrowD : b.grid.getD ky [] = row := by
            rw [List.getD_eq_getElem?_getD, hrow]
            rfl
          refine ⟨List.length_set _ _ _, fun j => ?_⟩
          show ((b.grid.set ky (row.set kx (!c))).getD j []).length
            = (b.grid.getD j []).length
          rw [getD_set b.grid ky _ [] j hkylt]
          by_cases hjy : ky = j
          · rw [if_pos hjy]
            subst hjy
            rw [List.length_set, hrowD]
          · rw [if_neg hjy]

/-- Claim C6 counterexample: constructing a Board from the ragged grid
`[[True], [True, False]]` succeeds and yields a grid that is not rectangular
for any width — rows of length 1 and 2 coexist. -/
theorem C6_counterexample :
    ¬ ∃ w, isRect (Board.from_grid [[true], [true, false]]).grid w := by
  rintro ⟨w, hw⟩
  have h1 := hw [true] (by decide)
  have h2 := hw [true, false] (by decide)
  simp at h1 h2
  omega

/-- Claim C6 (amended): empty construction always yields a rectangular
`height × width` grid of dead cells; a successful `toggle` preserves the row
count and every row length; a successful `next_step` returns a rectangular
grid (of the default 24 × 32 shape).  However `from_grid` copies its
argument verbatim, so a Board built from a ragged grid is not rectangular
(see the counterexample). -/
theorem C6_shape_invariants (size_x size_y : Int) (b : Board) :
    isRect (Board.init size_x size_y).grid size_x.toNat ∧
    (Board.init size_x size_y).grid.length = size_y.toNat ∧
    (∀ x y : Int, ∀ bp, b.toggle x y = some bp →
      bp.grid.length = b.grid.length ∧
      ∀ j : Nat, (bp.grid.getD j []).length = (b.grid.getD j []).length) ∧
    (∀ bp, b.next_step = some bp → bp.grid.length = 24 ∧ isRect bp.grid 32) := by
  refine ⟨?_, ?_, ?_, ?_⟩
  · intro row hrow
    rcases List.mem_map.mp hrow with ⟨a, _, hfa⟩
    rw [← hfa]
    exact List.length_replicate _ _
  · simp [Board.init]
  · intro x y bp h
    exact toggle_some_shape b x y bp h
  · intro bp hnext
    cases hrun : next_step_run b with
    | error st =>
      simp only [Board.next_step, hrun] at hnext
      exact Option.noConfusion hnext
    | ok st =>
      simp only [Board.next_step, hrun] at hnext
      have hsnap := (next_step_run_ok_snapshot b st hrun).2
      have hshape := next_step_snapshot_shape b.grid st.nextGrid hsnap
      have hdeflen : Board.defaultBoard.grid.length = 24 := by decide
      have hdefrow : ∀ j : Nat, j < 24 → (Board.defaultBoard.grid.getD j []).length = 32 := by
        decide
      cases hnext
      constructor
      · rw [hshape.1, hdeflen]
      · rw [isRect_iff]
        intro j hj
        rw [hshape.1, hdeflen] at hj
        rw [hshape.2 j]
        exact hdefrow j hj

/-- Witness for C6 at concrete inputs: `Board.init 2 1`, a toggle on the
board `[[True]]`, and `next_step` of the empty-grid board. -/
theorem C6_shape_invariants_witness :
    ((Board.mk [[false]]).grid.length = (Board.from_grid [[true]]).grid.length ∧
      ∀ j : Nat, ((Board.mk [[false]]).grid.getD j []).length
        = ((Board.from_grid [[true]]).grid.getD j []).length) ∧
    (Board.defaultBoard.grid.length = 24 ∧ isRect Board.defaultBoard.grid 32) :=
  ⟨(C6_shape_invariants 2 1 (Board.from_grid [[true]])).2.2.1 0 0
      (Board.mk [[false]]) (by decide),
   (C6_shape_invariants 2 1 (Board.from_grid [])).2.2.2 Board.defaultBoard (by decide)⟩

/-! ### Claims C1 and C3: the result board is allocated with default size -/

/-- Claim C1 (code bug, evaluation): `next_step` allocates its result as
`Board()` of the default 24 × 32 size instead of the receiver's size.  On the
all-dead 25-row × 1-column board the returned board has only 24 rows, so the
cell `(0, 24)` required by the rule does not exist; on the all-live
25-row × 1-column board the loop writes out of the default bounds and the
call raises an IndexError instead of returning a board. -/
theorem C1_next_step_rule_bug_eval :
    (Board.next_step (Board.from_grid (List.replicate 25 [false]))).map
      (fun bp => bp.grid.length) = some 24 ∧
    Board.next_step (Board.from_grid (List.replicate 25 [true])) = none := by decide

/-- Claim C3 (code bug, evaluation): on the valid 1 × 1 receiver `[[False]]`,
`next_step` returns a board of 24 rows × 32 columns, not of the receiver's
dimensions. -/
theorem C3_next_step_default_dims_eval :
    (Board.next_step (Board.from_grid [[false]])).map
      (fun bp => (bp.grid.length, (bp.grid.getD 0 []).length)) = some (24, 32) := by decide

/-! ### Claim C7 -/

/-- Claim C7 counterexample: constructing a Board from the non-rectangular
grid `[[True], [True, False]]` does not fail — it succeeds, copying the
ragged grid verbatim. -/
theorem C7_counterexample :
    (Board.from_grid [[true], [true, false]]).grid = [[true], [true, false]] ∧
    ¬ ∃ w, isRect (Board.from_grid [[true], [true, false]]).grid w := by
  refine ⟨rfl, ?_⟩
  rintro ⟨w, hw⟩
  have h1 := hw [true] (by decide)
  have h2 := hw [true, false] (by decide)
  simp at h1 h2
  omega

/-- Claim C7 (amended): construction from an existing grid never fails — the
source performs no rectangularity check; the grid (rectangular or not) is
deep-copied as supplied, so construction from a rectangular grid succeeds as
claimed, but a non-rectangular grid is accepted rather than rejected. -/
theorem C7_from_grid_never_fails (g : Grid) :
    (Board.from_grid g).grid = g ∧ (Board.from_grid g).grid.length = g.length :=
  ⟨rfl, rfl⟩

/-! ### Claim C8 -/

/-- Claim C8 counterexample: empty construction with width 0 (and with a
negative width) does not fail — it succeeds, producing rows of length 0;
with height 0 it produces an empty grid. -/
theorem C8_counterexample :
    Board.init 0 2 = Board.mk [[], []] ∧
    Board.init (-1) 3 = Board.mk [[], [], []] ∧
    Board.init 5 0 = Board.mk [] := by decide

/-- Claim C8 (amended): empty construction never fails; for any integer
dimensions it returns `max(0, height)` rows of `max(0, width)` dead cells
each.  In particular, for positive dimensions it is the claimed
`height × width` all-dead grid, but non-positive dimensions are accepted
rather than rejected. -/
theorem C8_init_never_fails (size_x size_y : Int) :
    (Board.init size_x size_y).grid
      = List.replicate size_y.toNat (List.replicate size_x.toNat false) ∧
    (Board.init size_x size_y).grid.length = size_y.toNat ∧
    ∀ row ∈ (Board.init size_x size_y).grid,
      row.length = size_x.toNat ∧ ∀ c ∈ row, c = false := by
  have h : (Board.init size_x size_y).grid
      = List.replicate size_y.toNat (List.replicate size_x.toNat false) := by
    show (List.range size_y.toNat).map (fun _ => List.replicate size_x.toNat false)
      = List.replicate size_y.toNat (List.replicate size_x.toNat false)
    rw [List.map_const', List.length_range]
  refine ⟨h, ?_, ?_⟩
  · rw [h, List.length_replicate]
  · intro row hrow
    rw [h] at hrow
    have hr := List.eq_of_mem_replicate hrow
    subst hr
    exact ⟨List.length_replicate _ _, fun c hc => List.eq_of_mem_replicate hc⟩

/-- Witness for C8's amended theorem at width −3, height 2: the rows of the
resulting grid are empty. -/
theorem C8_init_never_fails_witness :
    ([] : List Bool).length = (-3 : Int).toNat ∧ ∀ c ∈ ([] : List Bool), c = false :=
  (C8_init_never_fails (-3) 2).2.2 [] (by decide)

/-! ### Claim C10 -/

/-- Claim C10: `Board()` with all parameters at their defaults yields exactly
24 rows of 32 dead cells each, and `next_step` allocates its result via this
same default construction — on a zero-row receiver the loop body never runs
and the returned board is exactly the default board. -/
theorem C10_default_board :
    Board.defaultBoard.grid = List.replicate 24 (List.replicate 32 false) ∧
    Board.next_step (Board.from_grid []) = some Board.defaultBoard := by decide

/-- Witness for C9 at the concrete board `[[True, False], [False, False]]`,
toggling `(0, 0)`. -/
theorem C9_toggle_involution_witness :
    ∃ bp, (Board.from_grid [[true, false], [false, false]]).toggle (0 : Int) (0 : Int)
        = some bp ∧
      bp.grid.length = (Board.from_grid [[true, false], [false, false]]).grid.length ∧
      (∀ j : Nat, (bp.grid.getD j []).length
        = ((Board.from_grid [[true, false], [false, false]]).grid.getD j []).length) ∧
      (∀ i j : Nat, cellAt bp.grid i j
        = if i = 0 ∧ j = 0
          then !(cellAt (Board.from_grid [[true, false], [false, false]]).grid i j)
          else cellAt (Board.from_grid [[true, false], [false, false]]).grid i j) ∧
      bp.toggle (0 : Int) (0 : Int) = some (Board.from_grid [[true, false], [false, false]]) :=
  C9_toggle_involution (Board.from_grid [[true, false], [false, false]]) 2 0 0
    (by decide) (by decide) (by decide)

/-! ### Claim C4 -/

theorem sum_map_range' (f : Nat → Nat) (a n : Nat) :
    ((List.range' a n).map f).sum = ∑ i ∈ Finset.Ico a (a + n), f i := by
  induction n generalizing a with
  | zero => simp
  | succ n ih =>
    rw [List.range'_succ, List.map_cons, List.sum_cons, ih (a + 1)]
    rw [Finset.sum_eq_sum_Ico_succ_bot (by omega : a < a + (n + 1)) f]
    have e : a + 1 + n = a + (n + 1) := by omega
    rw [e]

theorem Ico_truncate (a b : Nat) : Finset.Ico a (a + (b - a)) = Finset.Ico a b := by
  ext k
  simp only [Finset.mem_Ico]
  omega

theorem nbCount_eq_sum (g : Grid) (x y : Nat) :
    nbCountGrid g x y =
      ∑ ny ∈ Finset.Ico (y - 1) (min (y + 2) g.length),
        ∑ nx ∈ Finset.Ico (x - 1) (min (x + 2) (g.getD ny []).length),
          (if nx = x ∧ ny = y then 0
           else if (g.getD ny []).getD nx false then 1 else 0) := by
  unfold nbCountGrid
  rw [sum_map_range', Ico_truncate]
  refine Finset.sum_congr rfl (fun ny _ => ?_)
  rw [sum_map_range', Ico_truncate]
theorem mooreLiveCount_eq_sum (g : Grid) (w x y : Nat) :
    mooreLiveCount g w x y
      = ∑ ny ∈ Finset.range g.length, ∑ nx ∈ Finset.range w,
          (if ((ny ≤ y + 1 ∧ y ≤ ny + 1 ∧ nx ≤ x + 1 ∧ x ≤ nx + 1) ∧
              ¬(nx = x ∧ ny = y) ∧ (g.getD ny []).getD nx false = true) then 1 else 0) := by
  unfold mooreLiveCount
  rw [Finset.card_filter, Finset.sum_product]

theorem mooreLiveCount_le_eight (g : Grid) (w x y : Nat) :
    mooreLiveCount g w x y ≤ 8 := by
  unfold mooreLiveCount
  have hsub : (((Finset.range g.length) ×ˢ (Finset.range w)).filter (fun p =>
      (p.1 ≤ y + 1 ∧ y ≤ p.1 + 1 ∧ p.2 ≤ x + 1 ∧ x ≤ p.2 + 1) ∧
      ¬(p.2 = x ∧ p.1 = y) ∧ (g.getD p.1 []).getD p.2 false = true))
      ⊆ ((Finset.Ico (y - 1) (y + 2)) ×ˢ (Finset.Ico (x - 1) (x + 2))).erase (y, x) := by
    intro p hp
    rw [Finset.mem_filter] at hp
    obtain ⟨hmem, hadj, hne, hcell⟩ := hp
    rw [Finset.mem_erase]
    constructor
    · intro heq
      exact hne ⟨by rw [heq], by rw [heq]⟩
    · rw [Finset.mem_product, Finset.mem_Ico, Finset.mem_Ico]
      omega
  have hmem : (y, x) ∈ (Finset.Ico (y - 1) (y + 2)) ×ˢ (Finset.Ico (x - 1) (x + 2)) := by
    rw [Finset.mem_product, Finset.mem_Ico, Finset.mem_Ico]
    omega
  have h1 := Finset.card_le_card hsub
  rw [Finset.card_erase_of_mem hmem, Finset.card_product, Nat.card_Ico, Nat.card_Ico] at h1
  have e1 : y + 2 - (y - 1) ≤ 3 := by omega
  have e2 : x + 2 - (x - 1) ≤ 3 := by omega
  have e3 : (y + 2 - (y - 1)) * (x + 2 - (x - 1)) ≤ 9 := by
    calc (y + 2 - (y - 1)) * (x + 2 - (x - 1)) ≤ 3 * 3 := Nat.mul_le_mul e1 e2
    _ = 9 := rfl
  omega

theorem nbCount_eq_moore (g : Grid) (w x y : Nat)
    (hrect : isRect g w) (hx : x < w) (hy : y < g.length) :
    nbCountGrid g x y = mooreLiveCount g w x y := by
  rw [nbCount_eq_sum, mooreLiveCount_eq_sum]
  have hsubY : Finset.Ico (y - 1) (min (y + 2) g.length) ⊆ Finset.range g.length := by
    intro k hk
    rw [Finset.mem_Ico] at hk
    rw [Finset.mem_range]
    omega
  have hvanY : ∀ ny ∈ Finset.range g.length,
      ny ∉ Finset.Ico (y - 1) (min (y + 2) g.length) →
      (∑ nx ∈ Finset.range w,
        (if ((ny ≤ y + 1 ∧ y ≤ ny + 1 ∧ nx ≤ x + 1 ∧ x ≤ nx + 1) ∧
            ¬(nx = x ∧ ny = y) ∧ (g.getD ny []).getD nx false = true) then 1 else 0)) = 0 := by
    intro ny hnyr hnyn
    rw [Finset.mem_range] at hnyr
    rw [Finset.mem_Ico] at hnyn
    refine Finset.sum_eq_zero fun nx _ => if_neg ?_
    rintro ⟨⟨ha1, ha2, _, _⟩, _⟩
    omega
  have hinner : ∀ ny ∈ Finset.Ico (y - 1) (min (y + 2) g.length),
      (∑ nx ∈ Finset.Ico (x - 1) (min (x + 2) (g.getD ny []).length),
        (if nx = x ∧ ny = y then 0
         else if (g.getD ny []).getD nx false then 1 else 0))
      = ∑ nx ∈ Finset.range w,
        (if ((ny ≤ y + 1 ∧ y ≤ ny + 1 ∧ nx ≤ x + 1 ∧ x ≤ nx + 1) ∧
            ¬(nx = x ∧ ny = y) ∧ (g.getD ny []).getD nx false = true) then 1 else 0) := by
    intro ny hny
    rw [Finset.mem_Ico] at hny
    have hnylt : ny < g.length := by omega
    rw [rect_getD_len g w hrect ny hnylt]
    have hsubX : Finset.Ico (x - 1) (min (x + 2) w) ⊆ Finset.range w := by
      intro k hk
      rw [Finset.mem_Ico] at hk
      rw [Finset.mem_range]
      omega
    have hvanX : ∀ nx ∈ Finset.range w,
        nx ∉ Finset.Ico (x - 1) (min (x + 2) w) →
        (if ((ny ≤ y + 1 ∧ y ≤ ny + 1 ∧ nx ≤ x + 1 ∧ x ≤ nx + 1) ∧
            ¬(nx = x ∧ ny = y) ∧ (g.getD ny []).getD nx false = true) then 1 else 0) = 0 := by
      intro nx hnxr hnxn
      rw [Finset.mem_range] at hnxr
      rw [Finset.mem_Ico] at hnxn
      refine if_neg ?_
      rintro ⟨⟨_, _, hb1, hb2⟩, _⟩
      omega
    refine Eq.trans (Finset.sum_congr rfl fun nx hnx => ?_)
      (Finset.sum_subset hsubX hvanX)
    rw [Finset.mem_Ico] at hnx
    by_cases he : nx = x ∧ ny = y
    · rw [if_pos he, if_neg (fun hpred => hpred.2.1 he)]
    · rw [if_neg he]
      by_cases hcell : (g.getD ny []).getD nx false = true
      · rw [if_pos hcell,
          if_pos ⟨⟨by omega, by omega, by omega, by omega⟩, he, hcell⟩]
      · rw [if_neg hcell, if_neg (fun hpred => hcell hpred.2.2)]
  exact Eq.trans (Finset.sum_congr rfl hinner) (Finset.sum_subset hsubY hvanY)

/-- Claim C4: on a rectangular board, for every in-range coordinate
`(x, y)` — corners and edges included — `_get_neighbour_count` equals the
number of live cells in the Moore neighborhood intersected with
`[0, width) × [0, height)` excluding `(x, y)` itself (so the clamped scan
never counts any coordinate outside the grid and applies no wraparound), and
the count is at most 8. -/
theorem C4_neighbour_count (b : Board) (w x y : Nat)
    (hrect : isRect b.grid w) (hx : x < w) (hy : y < b.grid.length) :
    b.get_neighbour_count x y = mooreLiveCount b.grid w x y ∧
    b.get_neighbour_count x y ≤ 8 := by
  have heq : nbCountGrid b.grid x y = mooreLiveCount b.grid w x y :=
    nbCount_eq_moore b.grid w x y hrect hx hy
  refine ⟨heq, ?_⟩
  show nbCountGrid b.grid x y ≤ 8
  rw [heq]
  exact mooreLiveCount_le_eight b.grid w x y

/-- Witness for C4 at the corner `(0, 0)` of the concrete 2 × 2 board
`[[True, True], [True, False]]`: the count is 2 on both sides. -/
theorem C4_neighbour_count_witness :
    (Board.from_grid [[true, true], [true, false]]).get_neighbour_count 0 0
      = mooreLiveCount (Board.from_grid [[true, true], [true, false]]).grid 2 0 0 ∧
    (Board.from_grid [[true, true], [true, false]]).get_neighbour_count 0 0 ≤ 8 :=
  C4_neighbour_count (Board.from_grid [[true, true], [true, false]]) 2 0 0
    (by decide) (by decide) (by decide)
